import Mathlib

/-!
Verification of the Harmonixia-GTK real-time audio output pipeline
(src/music_assistant/audio_pipeline.py and src/music_assistant/eq_presets.py)
against its natural-language specification.

Shallow embedding conventions:
- Python floats are modelled as exact rationals (the EQ/volume values the code
  handles are small decimal literals and ratios, for which rational arithmetic
  agrees with the intent of the float code).
- Python ints are modelled as Int (timestamps, which may go negative under
  subtraction) or Nat (sizes, rates, counts, which the spec constrains to be
  nonnegative).  All divisors at division/modulo sites are nonnegative, where
  Python's floor division and modulo agree with Nat division and modulo.
- GStreamer objects are modelled by Nat identities drawn from an allocator
  field, and the observable properties set on them (appsrc caps, volume and
  mute, equalizer band properties, pipeline play state) are carried as shadow
  fields of the pipeline state.  Element-factory availability and the
  get_supported_formats callback are an explicit environment record.
- The model assumes the GStreamer bindings imported successfully (the
  "Gst is None" early-return guards are degenerate and outside every claim).
-/

/-- Modelled from the spec: the PCMFormat record is declared in the sendspin
module, which is not under src/ (only its callers are).  Spec section 3
describes StreamFormat as sample_rate : int > 0, bit_depth in 16/24/32,
channels : int > 0; positivity is carried as hypotheses where needed. -/

structure PCMFormat where
  sample_rate : Nat
  bit_depth : Nat
  channels : Nat
deriving DecidableEq

/-- An EQ band dict as stored by configure_eq_bands and as built by the
preset conversion: keys freq, bandwidth, gain. -/

structure BandConfig where
  freq : Rat
  bandwidth : Rat
  gain : Rat
deriving DecidableEq

/-- The caps string built by build_pcm_caps, kept structured: the format name
together with the channel count and rate it mentions (the layout part is the
constant "interleaved"). -/

structure Caps where
  format : String
  channels : Nat
  rate : Nat
deriving DecidableEq

/-- A GStreamer buffer as filled by push_audio: pts, dts, duration and the
byte size of the payload. -/

structure GstBuffer where
  pts : Int
  dts : Int
  duration : Nat
  size : Nat
deriving DecidableEq

/-- The fields of the AudioPipeline object (audio_pipeline.py, __init__),
with GStreamer objects as Nat identities plus shadow fields for the
properties the code sets on them. -/

structure PipeState where
  pipeline : Option Nat
  appsrc : Option Nat
  volume_element : Option Nat
  eq_element : Option Nat
  stream_format : Option PCMFormat
  stream_start_ts : Option Int
  last_pts_ns : Option Int
  bytes_per_sample_override : Option Nat
  bus : Option Nat
  bus_watch_id : Option Nat
  volume : Rat
  muted : Bool
  eq_enabled : Bool
  eq_num_bands : Int
  eq_band_configs : List BandConfig
  -- modelled externals
  next_id : Nat
  gst_playing : Bool
  appsrc_caps : Option Caps
  applied_volume : Option (Rat × Bool)
  gst_bands : List BandConfig
deriving DecidableEq

/-- The AudioPipeline constructor's field initialisation (__init__). -/

def init_pipeline : PipeState where
  pipeline := none
  appsrc := none
  volume_element := none
  eq_element := none
  stream_format := none
  stream_start_ts := none
  last_pts_ns := none
  bytes_per_sample_override := none
  bus := none
  bus_watch_id := none
  volume := 0.65
  muted := false
  eq_enabled := false
  eq_num_bands := 10
  eq_band_configs := []
  next_id := 0
  gst_playing := false
  appsrc_caps := none
  applied_volume := none
  gst_bands := []

/-- The ordered comparison key of _pick_output_format:
(abs(sample_rate - stream_rate), -bit_depth). -/

def pick_key (stream_rate : Nat) (entry : Nat × Nat) : Int × Int :=
  (|(entry.1 : Int) - (stream_rate : Int)|, -(entry.2 : Int))

/-- Strict lexicographic comparison of keys, as Python compares the tuples. -/

def key_lt (a b : Int × Int) : Bool :=
  decide (a.1 < b.1) || (decide (a.1 = b.1) && decide (a.2 < b.2))

/-- Non-strict lexicographic order on keys (the complement of key_lt with the
arguments swapped). -/

def key_le (a b : Int × Int) : Prop :=
  a.1 < b.1 ∨ (a.1 = b.1 ∧ a.2 ≤ b.2)

/-- One iteration of the best/best_key selection loop of _pick_output_format. -/

def pick_step (stream_rate : Nat) (acc : Option ((Nat × Nat) × (Int × Int)))
    (entry : Nat × Nat) : Option ((Nat × Nat) × (Int × Int)) :=
  let key := pick_key stream_rate entry
  match acc with
  | none => some (entry, key)
  | some (best, best_key) =>
      if key_lt key best_key then some (entry, key) else some (best, best_key)

/-- Source _pick_output_format(format_info, supported_formats): None on an empty
list, else the loop over (sample_rate, bit_depth) pairs keeping the entry
with the strictly smallest key.  A pure function of its arguments (the
source is a staticmethod with no writes). -/

def pick_output_format (format_info : PCMFormat)
    (supported_formats : List (Nat × Nat)) : Option (Nat × Nat) :=
  if supported_formats = [] then none
  else
    (supported_formats.foldl (pick_step format_info.sample_rate) none).map
      (fun best => best.1)

/-- Python truthiness of the bytes-per-sample override field (only the value
4 is ever stored, and 0 would be falsy). -/

def override_active (o : Option Nat) : Bool := o.getD 0 != 0

/-- get_gst_pcm_format(bit_depth, bytes_per_sample). -/

def get_gst_pcm_format (bit_depth : Nat) (bytes_per_sample : Option Nat) :
    String :=
  if bit_depth = 16 then "S16LE"
  else if bit_depth = 24 then
    if bytes_per_sample = some 4 then "S24_32LE" else "S24LE"
  else if bit_depth = 32 then "S32LE"
  else "S16LE"

/-- Source _get_bytes_per_sample: the override when set (and the stream is 24-bit),
else max(1, bit_depth // 8). -/

def get_bytes_per_sample (s : PipeState) (format_info : PCMFormat) : Nat :=
  if format_info.bit_depth = 24 ∧ override_active s.bytes_per_sample_override
  then s.bytes_per_sample_override.getD 0
  else max 1 (format_info.bit_depth / 8)

/-- Source _get_frame_size: channels * bytes_per_sample. -/

def get_frame_size (s : PipeState) (format_info : PCMFormat) : Nat :=
  format_info.channels * get_bytes_per_sample s format_info

/-- build_pcm_caps: the caps derived from the format and the current
bytes-per-sample value. -/

def build_pcm_caps (s : PipeState) (format_info : PCMFormat) : Caps where
  format := get_gst_pcm_format format_info.bit_depth
    (some (get_bytes_per_sample s format_info))
  channels := format_info.channels
  rate := format_info.sample_rate

/-- Source _update_caps: rebuild the caps from the format and set them on appsrc
(no-op when there is no appsrc). -/

def update_caps (s : PipeState) (format_info : PCMFormat) : PipeState :=
  if s.appsrc.isNone then s
  else { s with appsrc_caps := some (build_pcm_caps s format_info) }

/-- The branch decision of push_audio's size check, as a function of the
current override value: none = warning-and-drop; some (upd, fs) = accept
with frame size fs, where upd = some newov means the override is first set
to newov and the caps are updated, and upd = none means no change.  This
mirrors lines 278-312 of audio_pipeline.py branch for branch. -/

def resolve_plan (ov : Option Nat) (data_len frame_size : Nat)
    (format_info : PCMFormat) : Option (Option (Option Nat) × Nat) :=
  if data_len % frame_size = 0 then some (none, frame_size)
  else if format_info.bit_depth = 24 then
    if data_len % (format_info.channels * 4) = 0 then
      if ov = some 4 then some (none, format_info.channels * 4)
      else some (some (some 4), format_info.channels * 4)
    else if override_active ov = true ∧
        data_len % (format_info.channels * 3) = 0 then
      some (some none, format_info.channels * 3)
    else none
  else none

/-- The size-check half of push_audio: apply the plan to the state (flipping
the override and updating the caps when the plan says so). -/

def push_resolve (s : PipeState) (data_len frame_size : Nat)
    (format_info : PCMFormat) : Option (PipeState × Nat) :=
  match resolve_plan s.bytes_per_sample_override data_len frame_size
      format_info with
  | none => none
  | some (none, fs) => some (s, fs)
  | some (some newov, fs) =>
      some (update_caps { s with bytes_per_sample_override := newov }
        format_info, fs)

/-- The timestamp-sequencer half of push_audio: duration from the sample
count, stream start latched on the first chunk, pts from the wall-clock
offset with the monotonic repair, and the emitted buffer.
duration_ns = int(sample_count / sample_rate * 1e9) is modelled as the exact
rational truncation, i.e. Nat floor division. -/

def push_emit (s : PipeState) (timestamp_us : Int)
    (data_len frame_size : Nat) (format_info : PCMFormat) :
    PipeState × GstBuffer :=
  let sample_count := data_len / frame_size
  let duration_ns : Nat := sample_count * 1000000000 / format_info.sample_rate
  let start : Int := s.stream_start_ts.getD timestamp_us
  let pts0 : Int := max 0 ((timestamp_us - start) * 1000)
  let pts : Int :=
    match s.last_pts_ns with
    | some last => if pts0 ≤ last then last + (duration_ns : Int) else pts0
    | none => pts0
  ({ s with stream_start_ts := some start, last_pts_ns := some pts },
   ⟨pts, pts, duration_ns, data_len⟩)

/-- push_audio(timestamp_us, data, format_info), with the payload represented
by its byte length (the code only reads len(data) and copies the bytes into
the buffer).  Returns the new state and the buffer pushed to appsrc, if any. -/

def push_audio (s : PipeState) (timestamp_us : Int) (data_len : Nat)
    (format_info : PCMFormat) : PipeState × Option GstBuffer :=
  if ¬ s.appsrc.isSome then (s, none)
  else if get_frame_size s format_info = 0 then (s, none)
  else
    match push_resolve s data_len (get_frame_size s format_info)
        format_info with
    | none => (s, none)
    | some (s1, fs) =>
        ((push_emit s1 timestamp_us data_len fs format_info).1,
         some (push_emit s1 timestamp_us data_len fs format_info).2)

/-- A push_audio call: arrival timestamp, payload length, declared format. -/

structure Chunk where
  timestamp_us : Int
  data_len : Nat
  format : PCMFormat
deriving DecidableEq

/-- A sequence of push_audio calls, collecting the emitted buffers. -/

def run_push : PipeState → List Chunk → PipeState × List GstBuffer
  | s, [] => (s, [])
  | s, c :: rest =>
      match push_audio s c.timestamp_us c.data_len c.format with
      | (s1, some b) =>
          ((run_push s1 rest).1, b :: (run_push s1 rest).2)
      | (s1, none) => run_push s1 rest

/-- An entry of the band_configs argument of configure_eq_bands: either a
coerced dict (missing keys default to 0.0, per config.get(key, 0.0)) or an
invalid entry (a non-dict, or one whose values fail float coercion). -/

inductive EqBandInput
  | invalid
  | config (freq bandwidth gain : Rat)
deriving DecidableEq

/-- The validation loop of configure_eq_bands: stop once num_bands configs
are accepted; skip invalid entries and entries with freq <= 0 or
bandwidth <= 0; clamp out-of-range gain into [-24, 12]. -/

def validate_bands : Int → List EqBandInput → List BandConfig
  | _, [] => []
  | remaining, c :: rest =>
      if remaining ≤ 0 then []
      else
        match c with
        | .invalid => validate_bands remaining rest
        | .config f bw g =>
            if f ≤ 0 ∨ bw ≤ 0 then validate_bands remaining rest
            else
              ⟨f, bw, if g < -24 ∨ g > 12 then max (-24) (min 12 g) else g⟩ ::
                validate_bands (remaining - 1) rest

/-- A fresh band slot of the equalizer-nbands element; its real GStreamer
defaults are opaque to the code, modelled as zeros (never observed by any
claim). -/

def default_gst_band : BandConfig := ⟨0, 0, 0⟩

/-- Resizing the element's band list to the num-bands property. -/

def resize_gst_bands (bands : List BandConfig) (n : Nat) : List BandConfig :=
  bands.take n ++ List.replicate (n - bands.length) default_gst_band

/-- Zeroing the gain property of every band slot (the disabled branch). -/

def zero_gains (bands : List BandConfig) : List BandConfig :=
  bands.map (fun b => { b with gain := 0 })

/-- Writing stored configs onto the leading band slots by index. -/

def write_gst_bands : List BandConfig → List BandConfig → List BandConfig
  | slots, [] => slots
  | [], _ => []
  | _ :: slots, c :: cs => c :: write_gst_bands slots cs

/-- The enabled branch of _apply_eq_config: resize the slots to num-bands
and write the first num_bands stored configs onto them. -/

def enabled_gst_bands (s : PipeState) : List BandConfig :=
  write_gst_bands (resize_gst_bands s.gst_bands s.eq_num_bands.toNat)
    (s.eq_band_configs.take s.eq_num_bands.toNat)

/-- Source _apply_eq_config: no-op without an equalizer element; otherwise set the
num-bands property (resizing the slots), then either zero every slot's gain
(disabled) or write the first num_bands stored configs onto the slots
(enabled).  Stored eq_band_configs are read, never written. -/

def apply_eq_config (s : PipeState) : PipeState :=
  if s.eq_element.isNone then s
  else
    if ¬ s.eq_enabled then
      { s with gst_bands :=
          zero_gains (resize_gst_bands s.gst_bands s.eq_num_bands.toNat) }
    else
      { s with gst_bands := enabled_gst_bands s }

/-- The num_bands clamp of configure_eq_bands: out-of-range values are
forced into [1, 64]. -/

def clamp_num_bands (n : Int) : Int :=
  if n < 1 ∨ n > 64 then max 1 (min 64 n) else n

/-- configure_eq_bands(num_bands, band_configs): clamp num_bands into
[1, 64], validate the configs, store both, and re-apply to the live graph
when a pipeline exists.  (The int() coercion guard is outside the model:
num_bands is already an integer here.) -/

def configure_eq_bands (s : PipeState) (num_bands : Int)
    (band_configs : List EqBandInput) : PipeState :=
  if s.pipeline.isSome then
    apply_eq_config { s with
      eq_num_bands := clamp_num_bands num_bands
      eq_band_configs :=
        validate_bands (clamp_num_bands num_bands) band_configs }
  else
    { s with
      eq_num_bands := clamp_num_bands num_bands
      eq_band_configs :=
        validate_bands (clamp_num_bands num_bands) band_configs }

/-- set_eq_enabled(enabled): store the flag and re-apply. -/

def set_eq_enabled (s : PipeState) (enabled : Bool) : PipeState :=
  apply_eq_config { s with eq_enabled := enabled }

/-- The dict returned by get_eq_state (band_configs deep-copied, which is
the identity on values). -/

structure EqState where
  enabled : Bool
  num_bands : Int
  band_configs : List BandConfig
deriving DecidableEq

/-- get_eq_state(). -/

def get_eq_state (s : PipeState) : EqState :=
  ⟨s.eq_enabled, s.eq_num_bands, s.eq_band_configs⟩

/-- Constants of eq_presets.py. -/

def MIN_FREQUENCY : Rat := 20

def MAX_FREQUENCY : Rat := 20000

def MIN_GAIN : Rat := -24

def MAX_GAIN : Rat := 12

def SHELF_FILTER_HANDLING : String := "approximate"

def SHELF_APPROX_Q : Rat := 0.7

def SHELF_APPROX_GAIN_SCALE : Rat := 1.0

/-- str.strip() on the character list: drop leading and trailing
whitespace. -/

def strip_chars (l : List Char) : List Char :=
  ((l.dropWhile Char.isWhitespace).reverse.dropWhile Char.isWhitespace).reverse

/-- Source _normalize_text on a string value: str(value).strip().lower(). -/

def normalize_str (s : String) : String :=
  String.mk ((strip_chars s.data).map Char.toLower)

/-- Source _normalize_text: empty for None, else strip and lowercase. -/

def normalize_text (v : Option String) : String :=
  normalize_str (v.getD "")

/-- Whether pat occurs as a prefix of l (characterwise). -/

def leads_chars : List Char → List Char → Bool
  | [], _ => true
  | _ :: _, [] => false
  | p :: ps, c :: cs => p == c && leads_chars ps cs

/-- Python's "pat in s" substring test on character lists. -/

def contains_chars (pat : List Char) : List Char → Bool
  | [] => leads_chars pat []
  | c :: cs => leads_chars pat (c :: cs) || contains_chars pat cs

/-- Source _is_shelf_filter: after normalization, non-empty and either containing
"shelf" or equal to "lshelf"/"hshelf". -/

def is_shelf_filter (filter_type : String) : Bool :=
  (normalize_str filter_type != "") &&
    (contains_chars "shelf".data (normalize_str filter_type).data ||
      normalize_str filter_type == "lshelf" ||
      normalize_str filter_type == "hshelf")

/-- A filter entry of a preset's filter list: either a non-dict entry, or a
dict with its frequency/gain/Q fields already float-coerced (unparsable
values coerce to None, exactly what both the conversion and
_describe_filter read) and its raw type string. -/

inductive FilterEntry
  | invalid
  | filter (frequency gain Q : Option Rat) (ftype : Option String)
deriving DecidableEq

/-- A dropped-filter record: the raw shape for non-dict entries, and the
_describe_filter shape (coerced fields, raw type, reason) otherwise. -/

inductive DroppedFilter
  | raw (reason : String)
  | described (frequency gain Q : Option Rat) (ftype : Option String)
      (reason : String)
deriving DecidableEq

/-- Source _describe_filter(filter_entry, reason): the coerced original fields with
the reason code. -/

def describe_filter (frequency gain Q : Option Rat) (ftype : Option String)
    (reason : String) : DroppedFilter :=
  .described frequency gain Q ftype reason

/-- The outcome of converting one filter: either a dropped record or an
emitted band config, the latter together with the final normalized filter
type (after shelf reclassification), which is what the downstream
non-peak check reads. -/

inductive FilterOutcome
  | dropped (d : DroppedFilter)
  | band (b : BandConfig) (effective_type : String)
deriving DecidableEq

/-- The post-shelf-handling steps of the conversion (lines 141-170 of
eq_presets.py): completeness check, Q check, frequency and gain clamps,
bandwidth derivation with its checks.  The orig_* arguments are the
original coerced fields used by _describe_filter. -/

def convert_tail (freq gain q_value : Option Rat) (ty_norm : String)
    (orig_freq orig_gain orig_q : Option Rat) (orig_ty : Option String) :
    FilterOutcome :=
  match freq, gain, q_value with
  | some f, some g, some qv =>
      if qv ≤ 0 then
        .dropped (describe_filter orig_freq orig_gain orig_q orig_ty
          "invalid_q")
      else
        let f1 := if f < MIN_FREQUENCY ∨ f > MAX_FREQUENCY then
          max MIN_FREQUENCY (min MAX_FREQUENCY f) else f
        let g1 := if g < MIN_GAIN ∨ g > MAX_GAIN then
          max MIN_GAIN (min MAX_GAIN g) else g
        if f1 / qv ≤ 0 then
          .dropped (describe_filter orig_freq orig_gain orig_q orig_ty
            "invalid_bandwidth")
        else
          .band ⟨f1, if f1 / qv > MAX_FREQUENCY then MAX_FREQUENCY
            else f1 / qv, g1⟩ ty_norm
  | _, _, _ =>
      .dropped (describe_filter orig_freq orig_gain orig_q orig_ty
        "incomplete")

/-- The per-filter conversion of _collect_gstreamer_bands: non-dict entries
are dropped as invalid_filter; shelf filters (under the "approximate"
handling) require frequency and gain, default Q to 0.7, scale the gain, and
are reclassified as peaking; then the common tail runs. -/

def convert_filter : FilterEntry → FilterOutcome
  | .invalid => .dropped (.raw "invalid_filter")
  | .filter freq gain q ty =>
      if is_shelf_filter (normalize_text ty) then
        if SHELF_FILTER_HANDLING = "approximate" then
          match freq, gain with
          | some f, some g =>
              convert_tail (some f) (some (g * SHELF_APPROX_GAIN_SCALE))
                (some (q.getD SHELF_APPROX_Q)) "peaking" freq gain q ty
          | _, _ =>
              .dropped (describe_filter freq gain q ty "incomplete_shelf")
        else .dropped (describe_filter freq gain q ty "unsupported_shelf")
      else convert_tail freq gain q (normalize_text ty) freq gain q ty

/-- Source _collect_gstreamer_bands: every filter becomes exactly one band config
or one dropped record, in order. -/

def collect_gstreamer_bands :
    List FilterEntry → List BandConfig × List DroppedFilter
  | [] => ([], [])
  | f :: rest =>
      match convert_filter f with
      | .band b _ =>
          ((collect_gstreamer_bands rest).1.cons b,
            (collect_gstreamer_bands rest).2)
      | .dropped d =>
          ((collect_gstreamer_bands rest).1,
            (collect_gstreamer_bands rest).2.cons d)

/-- The environment of a create_pipeline call: which element factories
succeed (Gst.ElementFactory.make may return null per element) and what the
get_supported_formats callback returns. -/

structure GstEnv where
  appsrc_ok : Bool
  queue_ok : Bool
  audioconvert_ok : Bool
  volume_ok : Bool
  eq_ok : Bool
  autosink_ok : Bool
  resample_ok : Bool
  capsfilter_ok : Bool
  post_convert_ok : Bool
  supported_formats : List (Nat × Nat)

/-- Allocation of a fresh GStreamer object identity (always succeeds, e.g.
Gst.Pipeline.new or bus handles). -/

def alloc (s : PipeState) : Nat × PipeState :=
  (s.next_id, { s with next_id := s.next_id + 1 })

/-- Gst.ElementFactory.make: a fresh identity when the factory is available,
null otherwise. -/

def make_element (ok : Bool) (s : PipeState) : Option Nat × PipeState :=
  if ok then (some s.next_id, { s with next_id := s.next_id + 1 })
  else (none, s)

/-- Source _apply_volume: set the volume and mute properties on the volume element
when one exists. -/

def apply_volume (s : PipeState) : PipeState :=
  if s.volume_element.isNone then s
  else { s with applied_volume := some (s.volume, s.muted) }

/-- set_volume(volume): clamp into [0, 1], store, apply. -/

def set_volume (s : PipeState) (volume : Rat) : PipeState :=
  apply_volume { s with volume := max 0 (min 1 volume) }

/-- set_muted(muted): store, apply. -/

def set_muted (s : PipeState) (muted : Bool) : PipeState :=
  apply_volume { s with muted := muted }

/-- flush(): no-op without an appsrc; otherwise reset the timestamp
sequencer (the flush events sent through the graph carry no modelled
state). -/

def flush (s : PipeState) : PipeState :=
  if s.appsrc.isNone then s
  else { s with stream_start_ts := none, last_pts_ns := none }

/-- destroy_pipeline(): early return when no pipeline exists; otherwise set
the graph to NULL and clear every graph-instance field, the timestamp
sequencer and the width override, and detach the bus watch.  The
manager-owned volume/muted/EQ configuration fields are not touched. -/

def destroy_pipeline (s : PipeState) : PipeState :=
  if s.pipeline.isNone then s
  else
    { s with
      gst_playing := false
      pipeline := none
      appsrc := none
      volume_element := none
      eq_element := none
      stream_format := none
      stream_start_ts := none
      last_pts_ns := none
      bytes_per_sample_override := none
      bus := none
      bus_watch_id := none }

/-- The graph-construction branch of create_pipeline (lines 88-235): make
the stages in source order, negotiate the output format, bail out (leaving
only the destroy side effects) when a required stage is missing, else store
the new handles, reset the timestamp sequencer, declare the caps, attach
the bus, start playback, and apply volume, mute and EQ state.  The
freshly-made elements start with no applied properties. -/

def build_pipeline (env : GstEnv) (s0 : PipeState) (format_info : PCMFormat)
    (sink_element : Option Nat) (volume : Rat) (muted : Bool) : PipeState :=
  let r1 := alloc s0
  let r2 := make_element env.appsrc_ok r1.2
  let r3 := make_element env.queue_ok r2.2
  let r4 := make_element env.audioconvert_ok r3.2
  let r5 := make_element env.volume_ok r4.2
  let r6 := make_element env.eq_ok r5.2
  let output_format := if sink_element.isSome ∧ env.supported_formats ≠ []
    then pick_output_format format_info env.supported_formats else none
  let r7 := if sink_element.isSome then (sink_element, r6.2)
    else make_element env.autosink_ok r6.2
  let target := output_format.getD
    (format_info.sample_rate, format_info.bit_depth)
  let use_resample := target.1 ≠ format_info.sample_rate
  let r8 := if use_resample then make_element env.resample_ok r7.2
    else (none, r7.2)
  let r9 := if output_format.isSome then make_element env.capsfilter_ok r8.2
    else (none, r8.2)
  let r10 := if output_format.isSome ∧ (r6.1).isSome then
    make_element env.post_convert_ok r9.2 else (none, r9.2)
  if (r2.1).isNone ∨ (r4.1).isNone ∨ (r7.1).isNone then r10.2
  else if use_resample ∧ (r8.1).isNone then r10.2
  else if output_format.isSome ∧ (r9.1).isNone then r10.2
  else
    let r11 := alloc r10.2
    let r12 := alloc r11.2
    let s2 := { r12.2 with
      pipeline := some r1.1
      appsrc := r2.1
      volume_element := r5.1
      eq_element := r6.1
      stream_format := some format_info
      stream_start_ts := none
      last_pts_ns := none
      bus := some r11.1
      bus_watch_id := some r12.1
      gst_playing := true
      applied_volume := none
      gst_bands := [] }
    apply_eq_config (set_muted (set_volume
      { s2 with appsrc_caps := some (build_pcm_caps s2 format_info) }
      volume) muted)

/-- create_pipeline(format_info, sink_element, volume, muted): when already
active with an identical stream format, just resume playback and re-apply
volume and mute; otherwise destroy any existing graph and build a new
one. -/

def create_pipeline (env : GstEnv) (s : PipeState) (format_info : PCMFormat)
    (sink_element : Option Nat) (volume : Rat) (muted : Bool) : PipeState :=
  if s.stream_format = some format_info ∧ s.pipeline.isSome ∧
      s.appsrc.isSome then
    set_muted (set_volume { s with gst_playing := true } volume) muted
  else
    build_pipeline env (destroy_pipeline s) format_info sink_element volume
      muted

theorem key_lt_iff (a b : Int × Int) :
    key_lt a b = true ↔ (a.1 < b.1 ∨ (a.1 = b.1 ∧ a.2 < b.2)) := by
  simp [key_lt]

theorem key_le_of_not_lt {a b : Int × Int} (h : key_lt a b = false) :
    key_le b a := by
  rw [Bool.eq_false_iff, Ne, key_lt_iff] at h
  unfold key_le
  omega

theorem key_le_trans {a b c : Int × Int} (h1 : key_le a b) (h2 : key_le b c) :
    key_le a c := by
  unfold key_le at *
  rcases h1 with h1 | ⟨h1, h1'⟩ <;> rcases h2 with h2 | ⟨h2, h2'⟩
  · exact Or.inl (h1.trans h2)
  · exact Or.inl (h2 ▸ h1)
  · exact Or.inl (h1 ▸ h2)
  · exact Or.inr ⟨h1.trans h2, h1'.trans h2'⟩

theorem key_le_of_lt {a b : Int × Int} (h : key_lt a b = true) : key_le a b := by
  rw [key_lt_iff] at h
  unfold key_le
  rcases h with h | ⟨h, h'⟩
  · exact Or.inl h
  · exact Or.inr ⟨h, le_of_lt h'⟩

theorem not_lt_of_key_le {a b : Int × Int} (h : key_le a b) :
    key_lt b a = false := by
  rw [Bool.eq_false_iff, Ne, key_lt_iff]
  unfold key_le at h
  omega

/-- Invariant of the selection loop: starting from a best entry, the fold
returns an entry of the list (or the start), with a key no larger than the
key of the start and minimal among the keys of the list. -/

theorem pick_fold_spec (r : Nat) :
    ∀ (l : List (Nat × Nat)) (b : Nat × Nat),
      ∃ b', l.foldl (pick_step r) (some (b, pick_key r b)) =
              some (b', pick_key r b') ∧
        (b' = b ∨ b' ∈ l) ∧ key_le (pick_key r b') (pick_key r b) ∧
        ∀ q ∈ l, key_le (pick_key r b') (pick_key r q) := by
  intro l
  induction l with
  | nil =>
      intro b
      exact ⟨b, rfl, Or.inl rfl, Or.inr ⟨rfl, le_refl _⟩, by simp⟩
  | cons e rest ih =>
      intro b
      by_cases hlt : key_lt (pick_key r e) (pick_key r b) = true
      · obtain ⟨b', hfold, hmem, hle, hall⟩ := ih e
        refine ⟨b', ?_, ?_, ?_, ?_⟩
        · simpa [pick_step, hlt] using hfold
        · rcases hmem with h | h
          · exact Or.inr (h ▸ List.mem_cons_self e rest)
          · exact Or.inr (List.mem_cons_of_mem e h)
        · exact key_le_trans hle (key_le_of_lt hlt)
        · intro q hq
          rcases List.mem_cons.mp hq with h | h
          · exact h ▸ hle
          · exact hall q h
      · rw [Bool.not_eq_true] at hlt
        obtain ⟨b', hfold, hmem, hle, hall⟩ := ih b
        refine ⟨b', ?_, ?_, hle, ?_⟩
        · simpa [pick_step, hlt] using hfold
        · rcases hmem with h | h
          · exact Or.inl h
          · exact Or.inr (List.mem_cons_of_mem e h)
        · intro q hq
          rcases List.mem_cons.mp hq with h | h
          · exact h ▸ key_le_trans hle (key_le_of_not_lt hlt)
          · exact hall q h

/-- C2: pick_output_format returns none exactly on an empty supported list;
otherwise it returns an element of the list whose key
(abs(rate - stream_rate), -bit_depth) is lexicographically minimal, so the
closest rate wins and the higher bit depth breaks ties; on stream rate 44100
and [(48000,16),(44100,24),(96000,32)] it returns (44100,24).  The embedded
function is pure by construction, matching the staticmethod's lack of side
effects. -/

theorem C2_pick_output_format (fmt : PCMFormat) (l : List (Nat × Nat)) :
    (l = [] → pick_output_format fmt l = none) ∧
    (l ≠ [] → ∃ b, pick_output_format fmt l = some b ∧ b ∈ l ∧
        ∀ q ∈ l, key_le (pick_key fmt.sample_rate b) (pick_key fmt.sample_rate q)) ∧
    pick_output_format ⟨44100, 16, 2⟩ [(48000, 16), (44100, 24), (96000, 32)] =
      some (44100, 24) := by
  refine ⟨fun h => by simp [pick_output_format, h], fun h => ?_, by decide⟩
  match l with
  | [] => exact absurd rfl h
  | e :: rest =>
      obtain ⟨b', hfold, hmem, hle, hall⟩ := pick_fold_spec fmt.sample_rate rest e
      refine ⟨b', ?_, ?_, ?_⟩
      · simp only [pick_output_format, if_neg h, List.foldl_cons]
        have hstep : pick_step fmt.sample_rate none e =
            some (e, pick_key fmt.sample_rate e) := rfl
        rw [hstep, hfold]
        rfl
      · rcases hmem with hh | hh
        · exact hh ▸ List.mem_cons_self e rest
        · exact List.mem_cons_of_mem e hh
      · intro q hq
        rcases List.mem_cons.mp hq with hh | hh
        · exact hh ▸ hle
        · exact hall q hh

/-- Closed witness for C2 at a concrete nonempty list. -/

theorem C2_witness :
    ∃ b, pick_output_format ⟨44100, 16, 2⟩ [(48000, 16), (44100, 24)] = some b ∧
      b ∈ [(48000, 16), (44100, 24)] ∧
      ∀ q ∈ [(48000, 16), (44100, 24)],
        key_le (pick_key 44100 b) (pick_key 44100 q) :=
  (C2_pick_output_format ⟨44100, 16, 2⟩ [(48000, 16), (44100, 24)]).2.1 (by decide)

/-! ### push_audio lemmas -/

theorem update_caps_fields (s : PipeState) (fmt : PCMFormat) :
    (update_caps s fmt).stream_start_ts = s.stream_start_ts ∧
    (update_caps s fmt).last_pts_ns = s.last_pts_ns ∧
    (update_caps s fmt).appsrc = s.appsrc ∧
    (update_caps s fmt).bytes_per_sample_override =
      s.bytes_per_sample_override := by
  unfold update_caps
  split_ifs <;> exact ⟨rfl, rfl, rfl, rfl⟩

/-- The three shapes a push_resolve result can take: drop, accept unchanged,
or accept after an override flip plus caps update. -/

theorem push_resolve_cases (s : PipeState) (dl fs : Nat) (fmt : PCMFormat) :
    push_resolve s dl fs fmt = none ∨
    (∃ f1, push_resolve s dl fs fmt = some (s, f1)) ∨
    (∃ newov f1, push_resolve s dl fs fmt =
        some (update_caps { s with bytes_per_sample_override := newov } fmt,
          f1)) := by
  unfold push_resolve
  rcases hplan : resolve_plan s.bytes_per_sample_override dl fs fmt
    with _ | ⟨_ | newov, f⟩
  · exact Or.inl rfl
  · exact Or.inr (Or.inl ⟨f, rfl⟩)
  · exact Or.inr (Or.inr ⟨newov, f, rfl⟩)

theorem push_resolve_state {s s1 : PipeState} {dl fs f1 : Nat}
    {fmt : PCMFormat}
    (h : push_resolve s dl fs fmt = some (s1, f1)) :
    s1.stream_start_ts = s.stream_start_ts ∧
      s1.last_pts_ns = s.last_pts_ns := by
  rcases push_resolve_cases s dl fs fmt with hc | ⟨f2, hc⟩ | ⟨newov, f2, hc⟩ <;>
    rw [hc] at h
  · exact Option.noConfusion h
  · injection h with h'
    injection h' with ha hb
    exact ⟨by rw [← ha], by rw [← ha]⟩
  · injection h with h'
    injection h' with ha hb
    constructor
    · rw [← ha]
      exact (update_caps_fields _ fmt).1
    · rw [← ha]
      exact (update_caps_fields _ fmt).2.1

/-- The two shapes a push_audio call can take: drop (state untouched, nothing
emitted) or accept (resolve then emit). -/

theorem push_audio_cases (s : PipeState) (ts : Int) (dl : Nat)
    (fmt : PCMFormat) :
    push_audio s ts dl fmt = (s, none) ∨
    ∃ s1 fs, push_resolve s dl (get_frame_size s fmt) fmt = some (s1, fs) ∧
      push_audio s ts dl fmt =
        ((push_emit s1 ts dl fs fmt).1,
         some (push_emit s1 ts dl fs fmt).2) := by
  by_cases h1 : ¬ s.appsrc.isSome
  · exact Or.inl (by unfold push_audio; rw [if_pos h1])
  · by_cases h2 : get_frame_size s fmt = 0
    · exact Or.inl (by unfold push_audio; rw [if_neg h1, if_pos h2])
    · rcases hres : push_resolve s dl (get_frame_size s fmt) fmt
        with _ | ⟨s1, fs⟩
      · refine Or.inl ?_
        unfold push_audio
        rw [if_neg h1, if_neg h2, hres]
      · refine Or.inr ⟨s1, fs, rfl, ?_⟩
        unfold push_audio
        rw [if_neg h1, if_neg h2, hres]

theorem push_audio_none_state {s s' : PipeState} {ts : Int} {dl : Nat}
    {fmt : PCMFormat}
    (h : push_audio s ts dl fmt = (s', none)) : s' = s := by
  rcases push_audio_cases s ts dl fmt with hc | ⟨s1, fs, -, hc⟩ <;>
    rw [hc] at h
  · injection h with ha hb
    exact ha.symm
  · injection h with ha hb
    exact Option.noConfusion hb

theorem push_audio_some_pieces {s s' : PipeState} {ts : Int} {dl : Nat}
    {fmt : PCMFormat} {b : GstBuffer}
    (h : push_audio s ts dl fmt = (s', some b)) :
    ∃ s1 fs, push_resolve s dl (get_frame_size s fmt) fmt = some (s1, fs) ∧
      s' = (push_emit s1 ts dl fs fmt).1 ∧
      b = (push_emit s1 ts dl fs fmt).2 := by
  rcases push_audio_cases s ts dl fmt with hc | ⟨s1, fs, hres, hc⟩ <;>
    rw [hc] at h
  · injection h with ha hb
    exact Option.noConfusion hb
  · injection h with ha hb
    exact ⟨s1, fs, hres, ha.symm, (Option.some.inj hb).symm⟩

theorem push_emit_last (s : PipeState) (ts : Int) (dl fs : Nat)
    (fmt : PCMFormat) :
    (push_emit s ts dl fs fmt).1.last_pts_ns =
      some (push_emit s ts dl fs fmt).2.pts := rfl

theorem push_emit_mono {s : PipeState} {p : Int} (ts : Int) (dl fs : Nat)
    (fmt : PCMFormat) (hp : s.last_pts_ns = some p) :
    p ≤ (push_emit s ts dl fs fmt).2.pts := by
  simp only [push_emit, hp]
  split_ifs with hle
  · exact le_add_of_nonneg_right (Int.natCast_nonneg _)
  · exact le_of_lt (not_le.mp hle)

theorem push_audio_some_last {s : PipeState} {ts : Int} {dl : Nat}
    {fmt : PCMFormat} {s' : PipeState} {b : GstBuffer}
    (h : push_audio s ts dl fmt = (s', some b)) :
    s'.last_pts_ns = some b.pts := by
  obtain ⟨s1, fs, -, hs, hb⟩ := push_audio_some_pieces h
  rw [hs, hb]
  exact push_emit_last s1 ts dl fs fmt

theorem push_audio_some_mono {s : PipeState} {ts : Int} {dl : Nat}
    {fmt : PCMFormat} {s' : PipeState} {b : GstBuffer} {p : Int}
    (h : push_audio s ts dl fmt = (s', some b))
    (hp : s.last_pts_ns = some p) : p ≤ b.pts := by
  obtain ⟨s1, fs, hres, -, hb⟩ := push_audio_some_pieces h
  obtain ⟨-, hlast⟩ := push_resolve_state hres
  rw [hb]
  exact push_emit_mono ts dl fs fmt (hlast.trans hp)

theorem run_push_cons_none {s s1 : PipeState} {c : Chunk} {rest : List Chunk}
    (h : push_audio s c.timestamp_us c.data_len c.format = (s1, none)) :
    run_push s (c :: rest) = run_push s1 rest := by
  conv_lhs => unfold run_push
  rw [h]

theorem run_push_cons_some {s s1 : PipeState} {b : GstBuffer} {c : Chunk}
    {rest : List Chunk}
    (h : push_audio s c.timestamp_us c.data_len c.format = (s1, some b)) :
    run_push s (c :: rest) =
      ((run_push s1 rest).1, b :: (run_push s1 rest).2) := by
  conv_lhs => unfold run_push
  rw [h]

/-- The run invariant for C1: the emitted pts values are non-decreasing, and
they all dominate any pts recorded in the incoming state. -/

theorem run_push_mono :
    ∀ (chunks : List Chunk) (s : PipeState),
      List.Chain' (· ≤ ·) ((run_push s chunks).2.map GstBuffer.pts) ∧
      (∀ p, s.last_pts_ns = some p →
        ∀ b ∈ (run_push s chunks).2, p ≤ b.pts) := by
  intro chunks
  induction chunks with
  | nil =>
      intro s
      constructor
      · simp [run_push]
      · intro p _ b hb
        simp [run_push] at hb
  | cons c rest ih =>
      intro s
      rcases hpush : push_audio s c.timestamp_us c.data_len c.format
        with ⟨s1, ob⟩
      rcases ob with _ | b
      · have hs1 : s1 = s := push_audio_none_state hpush
        subst hs1
        rw [run_push_cons_none hpush]
        exact ih _
      · have hlast : s1.last_pts_ns = some b.pts :=
          push_audio_some_last hpush
        rw [run_push_cons_some hpush]
        obtain ⟨ihchain, ihbound⟩ := ih s1
        have hboundb : ∀ x ∈ (run_push s1 rest).2, b.pts ≤ x.pts :=
          ihbound b.pts hlast
        constructor
        · simp only [List.map_cons]
          rcases htail : (run_push s1 rest).2 with _ | ⟨q, qs⟩
          · simp
          · rw [htail] at ihchain hboundb
            simp only [List.map_cons] at ihchain ⊢
            exact List.Chain'.cons
              (hboundb q (List.mem_cons_self q qs)) ihchain
        · intro p hp x hx
          rcases List.mem_cons.mp hx with hh | hh
          · exact hh ▸ push_audio_some_mono hpush hp
          · exact le_trans (push_audio_some_mono hpush hp) (hboundb x hh)

/-- C1: over any sequence of push_audio calls whose emitted buffers all have
positive duration, the pts values of the emitted buffers are non-decreasing;
and a call on a state with the stream start and a last pts recorded, whose
computed pts max(0, (timestamp_us - stream_start_ts) * 1000) does not exceed
the last pts, emits the repaired pts last_pts_ns + duration_ns. -/

theorem C1_monotonic_pts :
    (∀ (s : PipeState) (chunks : List Chunk),
      (∀ b ∈ (run_push s chunks).2, 0 < b.duration) →
      List.Chain' (· ≤ ·) ((run_push s chunks).2.map GstBuffer.pts)) ∧
    (∀ (s : PipeState) (ts : Int) (dl : Nat) (fmt : PCMFormat)
        (st L : Int) (s' : PipeState) (b : GstBuffer),
      s.stream_start_ts = some st → s.last_pts_ns = some L →
      max 0 ((ts - st) * 1000) ≤ L →
      push_audio s ts dl fmt = (s', some b) →
      b.pts = L + (b.duration : Int)) := by
  constructor
  · intro s chunks _
    exact (run_push_mono chunks s).1
  · intro s ts dl fmt st L s' b hst hL hle h
    obtain ⟨s1, fs, hres, -, hb⟩ := push_audio_some_pieces h
    obtain ⟨hstart, hlast⟩ := push_resolve_state hres
    rw [hb]
    simp only [push_emit, hstart.trans hst, hlast.trans hL, Option.getD_some]
    rw [if_pos hle]

/-- Closed witness for C1: two concrete chunks with the same timestamp go
through the repair path and still come out non-decreasing, and a concrete
repaired call emits last + duration. -/

theorem C1_witness :
    (List.Chain' (· ≤ ·)
      ((run_push { init_pipeline with appsrc := some 1 }
        [⟨0, 8, ⟨44100, 16, 2⟩⟩, ⟨0, 8, ⟨44100, 16, 2⟩⟩]).2.map
          GstBuffer.pts)) ∧
    ∀ s' b, push_audio
        { init_pipeline with
            appsrc := some 1
            stream_start_ts := some 0
            last_pts_ns := some 500 }
        0 8 ⟨44100, 16, 2⟩ = (s', some b) →
      b.pts = 500 + (b.duration : Int) := by
  constructor
  · exact C1_monotonic_pts.1 _ _ (by decide)
  · intro s' b h
    exact C1_monotonic_pts.2 _ 0 8 ⟨44100, 16, 2⟩ 0 500 s' b rfl rfl
      (by decide) h

theorem push_emit_fields (s : PipeState) (ts : Int) (dl fs : Nat)
    (fmt : PCMFormat) :
    (push_emit s ts dl fs fmt).1.bytes_per_sample_override =
        s.bytes_per_sample_override ∧
      (push_emit s ts dl fs fmt).1.appsrc_caps = s.appsrc_caps ∧
      (push_emit s ts dl fs fmt).1.appsrc = s.appsrc :=
  ⟨rfl, rfl, rfl⟩

/-- C3 (amended): the width-override flip on a 24-bit stream.  First half as
claimed: with no override in effect, a chunk divisible by channels*4 but not
channels*3 sets the override to 4, updates the appsrc caps to the widened
S24_32LE format, and the frame size becomes channels*4.  Second half amended:
a later chunk divisible by channels*3 but NOT by channels*4 (while the
override is 4) clears the override, updates the caps back to packed S24LE,
and the frame size becomes channels*3.  (A chunk divisible by both never
reaches the realignment branch, so the claim's unamended second half is
false; see the counterexample.) -/

theorem C3_24bit_realign (s : PipeState) (ts : Int) (dl : Nat)
    (fmt : PCMFormat) (ha : s.appsrc.isSome = true)
    (hbd : fmt.bit_depth = 24) (hch : 0 < fmt.channels) :
    (s.bytes_per_sample_override = none →
      dl % (fmt.channels * 3) ≠ 0 → dl % (fmt.channels * 4) = 0 →
      (push_audio s ts dl fmt).1.bytes_per_sample_override = some 4 ∧
      (push_audio s ts dl fmt).1.appsrc_caps =
        some ⟨"S24_32LE", fmt.channels, fmt.sample_rate⟩ ∧
      get_frame_size (push_audio s ts dl fmt).1 fmt = fmt.channels * 4) ∧
    (s.bytes_per_sample_override = some 4 →
      dl % (fmt.channels * 4) ≠ 0 → dl % (fmt.channels * 3) = 0 →
      (push_audio s ts dl fmt).1.bytes_per_sample_override = none ∧
      (push_audio s ts dl fmt).1.appsrc_caps =
        some ⟨"S24LE", fmt.channels, fmt.sample_rate⟩ ∧
      get_frame_size (push_audio s ts dl fmt).1 fmt = fmt.channels * 3) := by
  obtain ⟨aid, hae⟩ := Option.isSome_iff_exists.mp ha
  constructor
  · intro hov h3 h4
    have hframe : get_frame_size s fmt = fmt.channels * 3 := by
      simp [get_frame_size, get_bytes_per_sample, override_active, hov, hbd]
    have hplan : resolve_plan s.bytes_per_sample_override dl
        (fmt.channels * 3) fmt = some (some (some 4), fmt.channels * 4) := by
      unfold resolve_plan
      rw [if_neg h3, if_pos hbd, if_pos h4, hov, if_neg (by simp)]
    have hres : push_resolve s dl (fmt.channels * 3) fmt =
        some (update_caps { s with bytes_per_sample_override := some 4 } fmt,
          fmt.channels * 4) := by
      unfold push_resolve
      rw [hplan]
    have hpush : (push_audio s ts dl fmt).1 =
        (push_emit (update_caps
            { s with bytes_per_sample_override := some 4 } fmt)
          ts dl (fmt.channels * 4) fmt).1 := by
      unfold push_audio
      rw [if_neg (by simp [hae]), hframe, if_neg (by omega), hres]
    have hcaps : update_caps { s with bytes_per_sample_override := some 4 }
        fmt = { s with
          bytes_per_sample_override := some 4
          appsrc_caps := some ⟨"S24_32LE", fmt.channels, fmt.sample_rate⟩ } := by
      unfold update_caps
      rw [if_neg (by simp [hae])]
      simp [build_pcm_caps, get_bytes_per_sample, get_gst_pcm_format,
        override_active, hbd]
    rw [hpush, hcaps]
    refine ⟨rfl, rfl, ?_⟩
    simp [get_frame_size, get_bytes_per_sample, override_active, hbd,
      push_emit]
  · intro hov h4 h3
    have hframe : get_frame_size s fmt = fmt.channels * 4 := by
      simp [get_frame_size, get_bytes_per_sample, override_active, hov, hbd]
    have hplan : resolve_plan s.bytes_per_sample_override dl
        (fmt.channels * 4) fmt = some (some none, fmt.channels * 3) := by
      unfold resolve_plan
      rw [if_neg h4, if_pos hbd, if_neg h4,
        if_pos ⟨by simp [override_active, hov], h3⟩]
    have hres : push_resolve s dl (fmt.channels * 4) fmt =
        some (update_caps { s with bytes_per_sample_override := none } fmt,
          fmt.channels * 3) := by
      unfold push_resolve
      rw [hplan]
    have hpush : (push_audio s ts dl fmt).1 =
        (push_emit (update_caps
            { s with bytes_per_sample_override := none } fmt)
          ts dl (fmt.channels * 3) fmt).1 := by
      unfold push_audio
      rw [if_neg (by simp [hae]), hframe, if_neg (by omega), hres]
    have hcaps : update_caps { s with bytes_per_sample_override := none }
        fmt = { s with
          bytes_per_sample_override := none
          appsrc_caps := some ⟨"S24LE", fmt.channels, fmt.sample_rate⟩ } := by
      unfold update_caps
      rw [if_neg (by simp [hae])]
      simp [build_pcm_caps, get_bytes_per_sample, override_active, hbd,
        get_gst_pcm_format]
    rw [hpush, hcaps]
    refine ⟨rfl, rfl, ?_⟩
    simp [get_frame_size, get_bytes_per_sample, override_active, hbd,
      push_emit]

/-- C3 counterexample to the claim as stated: with the override at 4 on a
1-channel 24-bit stream, a 12-byte chunk IS divisible by channels*3 = 3, yet
push_audio leaves the override at 4 (12 is also divisible by the current
frame size 4, so the chunk takes the normal path and the override is not
cleared, contradicting the claim's unconditional second half). -/

theorem C3_counterexample :
    12 % (1 * 3) = 0 ∧
    (push_audio
        { init_pipeline with
            appsrc := some 1
            bytes_per_sample_override := some 4 }
        0 12 ⟨44100, 24, 1⟩).1.bytes_per_sample_override = some 4 := by
  decide

/-- Closed witness for C3: both halves of the amended claim at concrete
inputs (stereo 24-bit stream; 16 bytes flips the override on, then 18 bytes
flips it off). -/

theorem C3_witness :
    ((push_audio { init_pipeline with appsrc := some 1 }
        0 16 ⟨44100, 24, 2⟩).1.bytes_per_sample_override = some 4 ∧
      (push_audio { init_pipeline with appsrc := some 1 }
        0 16 ⟨44100, 24, 2⟩).1.appsrc_caps = some ⟨"S24_32LE", 2, 44100⟩ ∧
      get_frame_size (push_audio { init_pipeline with appsrc := some 1 }
        0 16 ⟨44100, 24, 2⟩).1 ⟨44100, 24, 2⟩ = 2 * 4) ∧
    ((push_audio
        { init_pipeline with
            appsrc := some 1
            bytes_per_sample_override := some 4 }
        0 18 ⟨44100, 24, 2⟩).1.bytes_per_sample_override = none ∧
      (push_audio
        { init_pipeline with
            appsrc := some 1
            bytes_per_sample_override := some 4 }
        0 18 ⟨44100, 24, 2⟩).1.appsrc_caps = some ⟨"S24LE", 2, 44100⟩ ∧
      get_frame_size (push_audio
        { init_pipeline with
            appsrc := some 1
            bytes_per_sample_override := some 4 }
        0 18 ⟨44100, 24, 2⟩).1 ⟨44100, 24, 2⟩ = 2 * 3) :=
  ⟨(C3_24bit_realign { init_pipeline with appsrc := some 1 } 0 16
      ⟨44100, 24, 2⟩ rfl rfl (by decide)).1 rfl (by decide) (by decide),
   (C3_24bit_realign
      { init_pipeline with
          appsrc := some 1
          bytes_per_sample_override := some 4 } 0 18
      ⟨44100, 24, 2⟩ rfl rfl (by decide)).2 rfl (by decide) (by decide)⟩

/-- C10: a chunk rejected by the warning-and-drop branch of push_audio
(length not a multiple of the applicable frame size, and for 24-bit streams
not realignable to either container) leaves the entire pipeline state
untouched and emits nothing. -/

theorem C10_drop_preserves_state (s : PipeState) (ts : Int) (dl : Nat)
    (fmt : PCMFormat) (ha : s.appsrc.isSome = true)
    (hfs : get_frame_size s fmt ≠ 0)
    (hmod : dl % get_frame_size s fmt ≠ 0)
    (h24 : fmt.bit_depth = 24 →
      dl % (fmt.channels * 4) ≠ 0 ∧
      ¬(override_active s.bytes_per_sample_override = true ∧
        dl % (fmt.channels * 3) = 0)) :
    push_audio s ts dl fmt = (s, none) := by
  have hplan : resolve_plan s.bytes_per_sample_override dl
      (get_frame_size s fmt) fmt = none := by
    unfold resolve_plan
    rw [if_neg hmod]
    by_cases hbd : fmt.bit_depth = 24
    · obtain ⟨h4, h34⟩ := h24 hbd
      rw [if_pos hbd, if_neg h4, if_neg h34]
    · rw [if_neg hbd]
  have hres : push_resolve s dl (get_frame_size s fmt) fmt = none := by
    unfold push_resolve
    rw [hplan]
  obtain ⟨aid, hae⟩ := Option.isSome_iff_exists.mp ha
  unfold push_audio
  rw [if_neg (by simp [hae]), if_neg hfs, hres]

/-- Closed witness for C10: a 7-byte chunk on a 16-bit stereo stream (frame
size 4) is dropped without any state change. -/

theorem C10_witness :
    push_audio { init_pipeline with appsrc := some 1 } 0 7 ⟨44100, 16, 2⟩ =
      ({ init_pipeline with appsrc := some 1 }, none) :=
  C10_drop_preserves_state { init_pipeline with appsrc := some 1 } 0 7
    ⟨44100, 16, 2⟩ rfl (by decide) (by decide) (by decide)

theorem apply_eq_config_fields (s : PipeState) :
    (apply_eq_config s).eq_band_configs = s.eq_band_configs ∧
    (apply_eq_config s).eq_num_bands = s.eq_num_bands ∧
    (apply_eq_config s).eq_enabled = s.eq_enabled := by
  unfold apply_eq_config
  split_ifs <;> exact ⟨rfl, rfl, rfl⟩

theorem configure_eq_bands_stored (s : PipeState) (n : Int)
    (cfgs : List EqBandInput) :
    (configure_eq_bands s n cfgs).eq_band_configs =
      validate_bands (clamp_num_bands n) cfgs ∧
    (configure_eq_bands s n cfgs).eq_num_bands = clamp_num_bands n := by
  unfold configure_eq_bands
  split_ifs with h1
  · exact ⟨(apply_eq_config_fields _).1, (apply_eq_config_fields _).2.1⟩
  · exact ⟨rfl, rfl⟩

theorem clamped_bands_pos (n : Int) : 1 ≤ clamp_num_bands n := by
  unfold clamp_num_bands
  split_ifs with h
  · exact le_max_left 1 _
  · omega

/-- C5: configuring bands, disabling the EQ, then re-enabling it leaves the
stored band_configs exactly as configure left them (the validated configs);
get_eq_state reports the same band_configs before and after the round trip.
Disabling only rewrites gains on the live element's band slots. -/

theorem C5_eq_enable_round_trip (s : PipeState) (n : Int)
    (cfgs : List EqBandInput) :
    (set_eq_enabled (set_eq_enabled (configure_eq_bands s n cfgs) false)
        true).eq_band_configs =
      (configure_eq_bands s n cfgs).eq_band_configs ∧
    (get_eq_state (set_eq_enabled
        (set_eq_enabled (configure_eq_bands s n cfgs) false)
        true)).band_configs =
      (get_eq_state (configure_eq_bands s n cfgs)).band_configs ∧
    (configure_eq_bands s n cfgs).eq_band_configs =
      validate_bands (clamp_num_bands n) cfgs := by
  have h1 : ∀ (t : PipeState) (e : Bool),
      (set_eq_enabled t e).eq_band_configs = t.eq_band_configs := by
    intro t e
    unfold set_eq_enabled
    exact (apply_eq_config_fields _).1
  refine ⟨?_, ?_, (configure_eq_bands_stored s n cfgs).1⟩
  · rw [h1, h1]
  · unfold get_eq_state
    simp only
    rw [h1, h1]

/-- C4 counterexample to the claim as stated: configure_eq_bands does not
clamp frequencies.  A band with freq = 30000 (valid bandwidth and gain) is
stored with freq 30000, not 20000: the [20, 20000] frequency clamp lives in
the preset conversion, not in configure_eq_bands. -/

theorem C4_counterexample :
    (configure_eq_bands init_pipeline 100
        [EqBandInput.config 30000 10 0]).eq_band_configs =
      [⟨30000, 10, 0⟩] ∧ ((30000 : Rat) = 20000 → False) := by
  constructor
  · decide
  · decide

/-- C4 (amended): configure_eq_bands clamps num_bands into [1, 64] (100 is
stored as 64); an accepted band with gain 20 is stored with gain clamped to
12; but a band with freq 30000 is stored with its frequency unchanged
(configure_eq_bands never clamps freq; the 20000 cap is applied by the
preset conversion pipeline, not here). -/

theorem C4_eq_clamps :
    (∀ (s : PipeState) (cfgs : List EqBandInput),
      (configure_eq_bands s 100 cfgs).eq_num_bands = 64) ∧
    (∀ (s : PipeState) (n : Int) (f bw : Rat), 0 < f → 0 < bw →
      (configure_eq_bands s n
        [EqBandInput.config f bw 20]).eq_band_configs = [⟨f, bw, 12⟩]) ∧
    (∀ (s : PipeState) (n : Int) (bw g : Rat), 0 < bw → -24 ≤ g → g ≤ 12 →
      (configure_eq_bands s n
        [EqBandInput.config 30000 bw g]).eq_band_configs =
        [⟨30000, bw, g⟩]) := by
  refine ⟨?_, ?_, ?_⟩
  · intro s cfgs
    rw [(configure_eq_bands_stored s 100 cfgs).2]
    unfold clamp_num_bands
    norm_num
  · intro s n f bw hf hbw
    rw [(configure_eq_bands_stored s n [EqBandInput.config f bw 20]).1]
    have hpos := clamped_bands_pos n
    unfold validate_bands
    rw [if_neg (by omega)]
    simp only
    rw [if_neg (by push_neg; exact ⟨hf, hbw⟩), if_pos (by norm_num)]
    norm_num [validate_bands]
  · intro s n bw g hbw hg1 hg2
    rw [(configure_eq_bands_stored s n [EqBandInput.config 30000 bw g]).1]
    have hpos := clamped_bands_pos n
    unfold validate_bands
    rw [if_neg (by omega)]
    simp only
    rw [if_neg (by push_neg; constructor <;> [norm_num; exact hbw]),
      if_neg (by push_neg; exact ⟨hg1, hg2⟩)]
    simp [validate_bands]

/-- Closed witness for C4 (amended) at concrete inputs. -/

theorem C4_witness :
    (configure_eq_bands init_pipeline 100 []).eq_num_bands = 64 ∧
    (configure_eq_bands init_pipeline 3
        [EqBandInput.config 1000 100 20]).eq_band_configs =
      [⟨1000, 100, 12⟩] ∧
    (configure_eq_bands init_pipeline 3
        [EqBandInput.config 30000 10 0]).eq_band_configs =
      [⟨30000, 10, 0⟩] :=
  ⟨C4_eq_clamps.1 init_pipeline [],
   C4_eq_clamps.2.1 init_pipeline 3 1000 100 (by norm_num) (by norm_num),
   C4_eq_clamps.2.2 init_pipeline 3 10 0 (by norm_num) (by norm_num)
     (by norm_num)⟩

/-- C6: shelf approximation.  A shelf-typed filter with both frequency and
gain present is not dropped even with Q missing: Q defaults to 0.7, the
gain is scaled by the unit factor, the filter is reclassified as peaking,
and the lowshelf example {type:"lowshelf", frequency:100, gain:-6} emits a
band with bandwidth 100/0.7; a shelf filter missing frequency or gain is
dropped as incomplete_shelf. -/

theorem C6_shelf_approximation :
    (∀ (freq gain q : Option Rat) (ty : Option String),
      is_shelf_filter (normalize_text ty) = true →
      (freq = none ∨ gain = none) →
      convert_filter (.filter freq gain q ty) =
        .dropped (describe_filter freq gain q ty "incomplete_shelf")) ∧
    convert_filter
        (.filter (some 100) (some (-6)) none (some "lowshelf")) =
      .band ⟨100, 100 / (0.7 : Rat), -6⟩ "peaking" := by
  constructor
  · intro freq gain q ty hshelf hmiss
    simp only [convert_filter]
    rw [if_pos hshelf,
      if_pos (show SHELF_FILTER_HANDLING = "approximate" from rfl)]
    rcases freq with _ | f <;> rcases gain with _ | g
    · rfl
    · rfl
    · rfl
    · rcases hmiss with h | h <;> exact Option.noConfusion h
  · simp only [convert_filter]
    rw [if_pos (show is_shelf_filter (normalize_text (some "lowshelf")) = true
        by decide),
      if_pos (show SHELF_FILTER_HANDLING = "approximate" from rfl)]
    norm_num [convert_tail, SHELF_APPROX_Q, SHELF_APPROX_GAIN_SCALE,
      MIN_FREQUENCY, MAX_FREQUENCY, MIN_GAIN, MAX_GAIN]

/-- Closed witness for C6: a highshelf filter missing gain drops as
incomplete_shelf. -/

theorem C6_witness :
    convert_filter (.filter (some 100) none none (some "highshelf")) =
      .dropped (describe_filter (some 100) none none (some "highshelf")
        "incomplete_shelf") :=
  C6_shelf_approximation.1 (some 100) none none (some "highshelf")
    (by decide) (Or.inr rfl)

/-- C7: conversion never silently loses filters: the number of emitted bands
plus the number of dropped records equals the number of input filters; and a
non-shelf filter missing its gain contributes no band and exactly one
dropped record with reason "incomplete". -/

theorem C7_no_silent_loss :
    (∀ (filters : List FilterEntry),
      (collect_gstreamer_bands filters).1.length +
          (collect_gstreamer_bands filters).2.length = filters.length) ∧
    (∀ (freq q : Option Rat) (ty : Option String),
      is_shelf_filter (normalize_text ty) = false →
      collect_gstreamer_bands [.filter freq none q ty] =
        ([], [describe_filter freq none q ty "incomplete"])) := by
  constructor
  · intro filters
    induction filters with
    | nil => rfl
    | cons f rest ih =>
        unfold collect_gstreamer_bands
        rcases convert_filter f with d | ⟨b, t⟩ <;>
          simp only [List.cons, List.length_cons] <;> omega
  · intro freq q ty hns
    have hconv : convert_filter (.filter freq none q ty) =
        .dropped (describe_filter freq none q ty "incomplete") := by
      simp only [convert_filter]
      rw [if_neg (by simp [hns])]
      unfold convert_tail
      rcases freq with _ | f <;> rcases q with _ | qv <;> rfl
    unfold collect_gstreamer_bands
    rw [hconv]
    rfl

/-- Closed witness for C7: a peaking filter missing gain lands in the
dropped list with reason incomplete and emits no band. -/

theorem C7_witness :
    collect_gstreamer_bands
        [.filter (some 100) none (some 1) (some "peaking")] =
      ([], [describe_filter (some 100) none (some 1) (some "peaking")
        "incomplete"]) :=
  C7_no_silent_loss.2 (some 100) (some 1) (some "peaking") (by decide)

/-- C8: a second create_pipeline call with a format identical to the active
stream format does not rebuild the graph: the pipeline and appsrc
identities are unchanged (and no new object identity is even allocated),
playback is resumed, volume (clamped into [0,1]) and mute are stored and
re-applied, and every other field — stream format, timestamp sequencer,
width override, bus watch, EQ configuration and the element band
properties — is untouched. -/

theorem C8_idempotent_create (env : GstEnv) (s : PipeState)
    (fmt : PCMFormat) (sink : Option Nat) (volume : Rat) (muted : Bool)
    (hfmt : s.stream_format = some fmt) (hp : s.pipeline.isSome)
    (ha : s.appsrc.isSome) :
    (create_pipeline env s fmt sink volume muted).pipeline = s.pipeline ∧
    (create_pipeline env s fmt sink volume muted).appsrc = s.appsrc ∧
    (create_pipeline env s fmt sink volume muted).volume_element =
      s.volume_element ∧
    (create_pipeline env s fmt sink volume muted).eq_element = s.eq_element ∧
    (create_pipeline env s fmt sink volume muted).stream_format =
      s.stream_format ∧
    (create_pipeline env s fmt sink volume muted).stream_start_ts =
      s.stream_start_ts ∧
    (create_pipeline env s fmt sink volume muted).last_pts_ns =
      s.last_pts_ns ∧
    (create_pipeline env s fmt sink volume muted).bytes_per_sample_override =
      s.bytes_per_sample_override ∧
    (create_pipeline env s fmt sink volume muted).bus = s.bus ∧
    (create_pipeline env s fmt sink volume muted).bus_watch_id =
      s.bus_watch_id ∧
    (create_pipeline env s fmt sink volume muted).eq_enabled = s.eq_enabled ∧
    (create_pipeline env s fmt sink volume muted).eq_num_bands =
      s.eq_num_bands ∧
    (create_pipeline env s fmt sink volume muted).eq_band_configs =
      s.eq_band_configs ∧
    (create_pipeline env s fmt sink volume muted).next_id = s.next_id ∧
    (create_pipeline env s fmt sink volume muted).gst_bands = s.gst_bands ∧
    (create_pipeline env s fmt sink volume muted).appsrc_caps =
      s.appsrc_caps ∧
    (create_pipeline env s fmt sink volume muted).gst_playing = true ∧
    (create_pipeline env s fmt sink volume muted).volume =
      max 0 (min 1 volume) ∧
    (create_pipeline env s fmt sink volume muted).muted = muted := by
  unfold create_pipeline
  rw [if_pos ⟨hfmt, hp, ha⟩]
  unfold set_muted set_volume apply_volume
  split_ifs <;>
    exact ⟨rfl, rfl, rfl, rfl, rfl, rfl, rfl, rfl, rfl, rfl, rfl, rfl, rfl,
      rfl, rfl, rfl, rfl, rfl, rfl⟩

/-- Closed witness for C8 on a concrete active state. -/

theorem C8_witness :
    (create_pipeline ⟨true, true, true, true, true, true, true, true, true,
        []⟩
      { init_pipeline with
          pipeline := some 0
          appsrc := some 1
          stream_format := some ⟨44100, 16, 2⟩ }
      ⟨44100, 16, 2⟩ none 1 false).pipeline = some 0 ∧
    (create_pipeline ⟨true, true, true, true, true, true, true, true, true,
        []⟩
      { init_pipeline with
          pipeline := some 0
          appsrc := some 1
          stream_format := some ⟨44100, 16, 2⟩ }
      ⟨44100, 16, 2⟩ none 1 false).appsrc = some 1 := by
  have h := C8_idempotent_create
    ⟨true, true, true, true, true, true, true, true, true, []⟩
    { init_pipeline with
        pipeline := some 0
        appsrc := some 1
        stream_format := some ⟨44100, 16, 2⟩ }
    ⟨44100, 16, 2⟩ none 1 false rfl rfl rfl
  exact ⟨h.1, h.2.1⟩

/-- C9: destroy_pipeline clears every graph-instance field (pipeline,
appsrc, volume and EQ element handles, stream format, bus watch), resets
the timestamp sequencer and the width override, leaves the manager-owned
volume/muted/EQ configuration untouched, is a no-op when no pipeline
exists, and is idempotent. -/

theorem C9_destroy_pipeline (s : PipeState) :
    ((destroy_pipeline s).volume = s.volume ∧
     (destroy_pipeline s).muted = s.muted ∧
     (destroy_pipeline s).eq_enabled = s.eq_enabled ∧
     (destroy_pipeline s).eq_num_bands = s.eq_num_bands ∧
     (destroy_pipeline s).eq_band_configs = s.eq_band_configs) ∧
    (s.pipeline.isSome →
      (destroy_pipeline s).pipeline = none ∧
      (destroy_pipeline s).appsrc = none ∧
      (destroy_pipeline s).volume_element = none ∧
      (destroy_pipeline s).eq_element = none ∧
      (destroy_pipeline s).stream_format = none ∧
      (destroy_pipeline s).stream_start_ts = none ∧
      (destroy_pipeline s).last_pts_ns = none ∧
      (destroy_pipeline s).bytes_per_sample_override = none ∧
      (destroy_pipeline s).bus = none ∧
      (destroy_pipeline s).bus_watch_id = none) ∧
    (s.pipeline = none → destroy_pipeline s = s) ∧
    destroy_pipeline (destroy_pipeline s) = destroy_pipeline s := by
  by_cases h : s.pipeline = none
  · have hd : destroy_pipeline s = s := by
      unfold destroy_pipeline
      rw [if_pos (by simp [h])]
    rw [hd]
    refine ⟨⟨rfl, rfl, rfl, rfl, rfl⟩, ?_, fun _ => rfl, hd⟩
    intro hsome
    rw [h] at hsome
    exact absurd hsome (by simp)
  · have hd : destroy_pipeline s =
        { s with
          gst_playing := false
          pipeline := none
          appsrc := none
          volume_element := none
          eq_element := none
          stream_format := none
          stream_start_ts := none
          last_pts_ns := none
          bytes_per_sample_override := none
          bus := none
          bus_watch_id := none } := by
      unfold destroy_pipeline
      rw [if_neg (by simp [Option.isNone_iff_eq_none, h])]
    rw [hd]
    refine ⟨⟨rfl, rfl, rfl, rfl, rfl⟩,
      fun _ => ⟨rfl, rfl, rfl, rfl, rfl, rfl, rfl, rfl, rfl, rfl⟩,
      fun hnone => absurd hnone h, ?_⟩
    unfold destroy_pipeline
    simp

/-- Closed witness for C9 on a concrete state with a live graph. -/

theorem C9_witness :
    (destroy_pipeline
      { init_pipeline with
          pipeline := some 0
          appsrc := some 1
          stream_start_ts := some 5 }).pipeline = none ∧
    (destroy_pipeline
      { init_pipeline with
          pipeline := some 0
          appsrc := some 1
          stream_start_ts := some 5 }).eq_num_bands =
      ({ init_pipeline with
          pipeline := some 0
          appsrc := some 1
          stream_start_ts := some 5 } : PipeState).eq_num_bands := by
  have h := C9_destroy_pipeline
    { init_pipeline with
        pipeline := some 0
        appsrc := some 1
        stream_start_ts := some 5 }
  exact ⟨(h.2.1 rfl).1, h.1.2.2.2.1⟩
